import Mathlib

/-
Shallow embedding of `examples/speech_to_text/prep_mustc_data_v2.py` (MuST-C v2
speech-translation corpus preparation) together with proofs about its
segment-index builder, framing formula, global-CMVN statistics cap, archive
re-use, manifest generation and command-line deduplication behaviour.

Conventions of the embedding:
* Machine arithmetic: the script evaluates expressions such as
  `int(float(segment["offset"]) * sample_rate)` and `int(wav.size(1)/sr*1000)`
  with IEEE-754 binary64 doubles.  The embedding models each double operation
  exactly: a double is carried as an exact (numerator, denominator) pair of
  integers, `roundRat` performs the correct round-to-nearest, ties-to-even
  rounding to 53 significant bits (normal range only: every magnitude in this
  corpus is far inside it, so subnormals and overflow never arise), and each
  `float()` conversion, division and multiplication of the source rounds once,
  as the hardware does.  Python `int()` is truncation toward zero (`Int.tdiv`).
  The one place kept in exact rational arithmetic is line 173's
  `int(1 + (duration_ms - 25) / 10)` (`n_frames_py`): there the exact value
  has fractional part a multiple of 0.1, its distance to any integer is at
  least 0.1, far above the double rounding error for every reachable
  duration, so truncation of the double equals truncation of the exact value.
* `yaml.load(..., Loader=yaml.BaseLoader)` returns every scalar as a *string*;
  the segment records therefore carry `offset`/`duration` as strings and the
  sort key of `sorted(_seg_group, key=lambda x: x["offset"])` is a string,
  compared by Python's code-point lexicographic order (`lexLt` below).
* Python's `sorted` is a stable sort; stably sorting with respect to a total
  preorder determines the output uniquely, so it is embedded by Mathlib's
  `List.insertionSort` (also stable) over the reflexive closure of the key
  order.
* `itertools.groupby` groups *consecutive* records with equal keys
  (`groupRuns` below).
* Fallible operations (a `float(...)` call on a malformed literal, a missing
  file, a failing `assert`) are modelled with `Option`/`Except`.
* External collaborators that are not part of this repository's source file
  (feature extraction, waveform decoding, archive utilities) are abstracted by
  parameters; `filter_manifest_df` is modelled from the spec (see its comment).
* CPython iterates `set(args.lang)` / `set(args.task)` in an unspecified
  hash-dependent order; the embedding uses `List.dedup` (each distinct element
  once).  No claim below depends on the particular order.
-/

namespace PrepMUSTC

/-! ### Python primitives -/

/-- Python string `<`: code-point lexicographic comparison of the two
character sequences. -/
def lexLt : List Char → List Char → Bool
  | [], [] => false
  | [], _ :: _ => true
  | _ :: _, [] => false
  | a :: as, b :: bs => if a < b then true else if b < a then false else lexLt as bs

/-- Python `a < b` on strings. -/
def pyStrLt (a b : String) : Bool := lexLt a.data b.data

/-- Auxiliary for `str.startswith`. -/
def listStarts : List Char → List Char → Bool
  | _, [] => true
  | [], _ :: _ => false
  | c :: cs, p :: ps => if c = p then listStarts cs ps else false

/-- Python `s.startswith(p)`. -/
def pyStartsWith (s p : String) : Bool := listStarts s.data p.data

/-- Python `int()` applied to the exact rational `num / den` (`den > 0` in all
uses): truncation toward zero. -/
def pyTrunc (num den : ℤ) : ℤ := Int.tdiv num den

/-- Value of a run of decimal digits (an empty run contributes 0; any
non-digit character makes the whole literal invalid). -/
def digitsVal (cs : List Char) : Option ℕ :=
  cs.foldl
    (fun acc c =>
      acc.bind (fun n => if c.isDigit then some (10 * n + (c.toNat - 48)) else none))
    (some 0)

/-- Attach an optional leading minus sign. -/
def intSign (neg : Bool) (n : ℕ) : ℤ := if neg then -(n : ℤ) else (n : ℤ)

/-- Python `float()` on a plain decimal literal (optional sign, integer part,
optional fractional part), as an exact value `mantissa / 10 ^ fracDigits`.
This is the only literal shape occurring in MuST-C yaml offset/duration
fields; any other string makes `float()` raise, modelled by `none`. -/
def parseDecimal (s : String) : Option (ℤ × ℕ) :=
  let p : List Char × Bool :=
    match s.data with
    | '-' :: t => (t, true)
    | '+' :: t => (t, false)
    | t => (t, false)
  match p.1.splitOn '.' with
  | [ip] =>
      if ip.isEmpty then none
      else (digitsVal ip).map (fun n => (intSign p.2 n, 0))
  | [ip, fp] =>
      if ip.isEmpty && fp.isEmpty then none
      else
        (digitsVal ip).bind (fun n =>
          (digitsVal fp).map (fun m =>
            (intSign p.2 (n * 10 ^ fp.length + m), fp.length)))
  | _ => none

/-! IEEE-754 binary64 arithmetic, exactly.  A double is an exact rational
(numerator, denominator) pair; every operation of the source rounds its exact
result once with round-to-nearest, ties-to-even, to 53 significant bits. -/

/-- Bit length of a natural number, by fuel-driven halving.  Fuel 2100 covers
every number below 2 ^ 2100, far beyond anything binary64 arithmetic on this
corpus produces. -/
def bitLenAux : ℕ → ℕ → ℕ
  | 0, _ => 0
  | fuel + 1, n => if n = 0 then 0 else bitLenAux fuel (n / 2) + 1

/-- Bit length: 0 for 0, and for positive n the unique k with
2 ^ (k - 1) ≤ n < 2 ^ k. -/
def bitLen (n : ℕ) : ℕ := bitLenAux 2100 n

/-- Decides 2 ^ e ≤ a / b for positive integers a, b and any integer e. -/
def pow2Le (e a b : ℤ) : Bool :=
  if 0 ≤ e then decide ((2 : ℤ) ^ e.toNat * b ≤ a)
  else decide (b ≤ (2 : ℤ) ^ (-e).toNat * a)

/-- Round the fraction p / qd (both positive) to the nearest integer, ties to
even. -/
def roundNearestEven (p qd : ℤ) : ℤ :=
  let n := p / qd
  let r := p % qd
  if 2 * r < qd then n
  else if qd < 2 * r then n + 1
  else if n % 2 = 0 then n else n + 1

/-- The binary64 double nearest to the positive rational a / b, as an exact
(numerator, denominator) pair: with E the exponent (2 ^ E ≤ a / b < 2 ^ (E+1)),
the value is rounded to a multiple of 2 ^ (E - 52), ties to even. -/
def roundPosRat (a b : ℤ) : ℤ × ℤ :=
  let d : ℤ := (bitLen a.toNat : ℤ) - (bitLen b.toNat : ℤ)
  let E : ℤ := if pow2Le d a b then d else d - 1
  let s : ℤ := 52 - E
  let m : ℤ :=
    if 0 ≤ s then roundNearestEven (a * 2 ^ s.toNat) b
    else roundNearestEven a (b * 2 ^ (-s).toNat)
  if 0 ≤ E - 52 then (m * 2 ^ (E - 52).toNat, 1) else (m, 2 ^ (52 - E).toNat)

/-- The binary64 double nearest to a / b (b positive), as an exact pair. -/
def roundRat : ℤ × ℤ → ℤ × ℤ
  | (a, b) =>
    if a = 0 then (0, 1)
    else if 0 < a then roundPosRat a b
    else
      let p := roundPosRat (-a) b
      (-p.1, p.2)

/-- Python `float(s)` on a plain decimal literal: the decimal value
mantissa / 10 ^ fracDigits, correctly rounded to binary64. -/
def pyFloat (s : String) : Option (ℤ × ℤ) :=
  (parseDecimal s).map (fun p => roundRat (p.1, (10 : ℤ) ^ p.2))

/-- Double multiplication of a double by an integer: the exact product,
rounded once. -/
def fmulInt (x : ℤ × ℤ) (k : ℤ) : ℤ × ℤ := roundRat (x.1 * k, x.2)

/-- Python true division of two integers (`a / b` with b positive): the exact
quotient, correctly rounded to binary64. -/
def fdivInt (a b : ℤ) : ℤ × ℤ := roundRat (a, b)

/-- Python `int()` of a double: truncation toward zero. -/
def ftrunc (x : ℤ × ℤ) : ℤ := Int.tdiv x.1 x.2

/-- Characters of a path up to (excluding) its last dot, if any. -/
def beforeLastDot : List Char → Option (List Char)
  | [] => none
  | c :: cs =>
    match beforeLastDot cs with
    | some t => some (c :: t)
    | none => if c = '.' then some [] else none

/-- Final component of a path (`pathlib.Path(...).name`). -/
def fileName (s : String) : String :=
  String.mk ((s.data.reverse.takeWhile (fun c => c ≠ '/')).reverse)

/-- `pathlib.Path(...).stem`: the final path component with its suffix
removed. -/
def stem (s : String) : String :=
  match beforeLastDot (fileName s).data with
  | some t => if t.isEmpty then fileName s else String.mk t
  | none => fileName s

/-! ### Segment index builder (`MUSTC.__init__`, lines 53-93) -/

/-- One yaml segment record after the transcript lines have been merged in
(lines 66-71 of the source).  All fields are strings, because
`yaml.BaseLoader` parses every scalar as a string. -/
structure SegRecord where
  wav : String
  offset : String
  duration : String
  speaker_id : String
  en : String
  tgt : String
deriving DecidableEq

/-- `MUSTC.SPLITS`. -/
def SPLITS : List String := ["train", "dev", "tst-COMMON", "tst-HE"]

/-- `MUSTC.LANGUAGES`. -/
def LANGUAGES : List String := ["de", "ja", "zh"]

/-- `MANIFEST_COLUMNS` (line 40). -/
def MANIFEST_COLUMNS : List String := ["id", "audio", "n_frames", "tgt_text", "speaker"]

/-- `itertools.groupby(segments, lambda x: x["wav"])`: maximal runs of
consecutive records with the same recording filename.  Records of one
recording separated by a record of another recording land in distinct
groups. -/
def groupRuns : List SegRecord → List (String × List SegRecord)
  | [] => []
  | s :: rest =>
    match groupRuns rest with
    | [] => [(s.wav, [s])]
    | (k, g) :: gs =>
      if s.wav = k then (k, s :: g) :: gs else (s.wav, [s]) :: (k, g) :: gs

/-- Sort relation of `sorted(_seg_group, key=lambda x: x["offset"])`: the
reflexive closure of Python's `<` on the *string* key `x["offset"]`.
`a ≼ b` iff the key of `b` is not strictly below the key of `a`. -/
def segLe (a b : SegRecord) : Prop := pyStrLt b.offset a.offset = false

instance : DecidableRel segLe := fun a b =>
  inferInstanceAs (Decidable (pyStrLt b.offset a.offset = false))

/-- `int(float(s) * sample_rate)` (lines 79-80): the string is converted to
the nearest binary64 double, multiplied by the sample rate with one further
rounding, and truncated toward zero, exactly as CPython computes it. -/
def convert (rate : ℤ) (s : String) : Option ℤ :=
  (pyFloat s).map (fun x => ftrunc (fmulInt x rate))

/-- One entry of `self.data` (lines 82-93). -/
structure DataItem where
  wav_path : String
  offset : ℤ
  n_frames : ℤ
  sample_rate : ℤ
  src_utt : String
  tgt_utt : String
  speaker_id : String
  id : String
deriving DecidableEq

/-- The `for i, segment in enumerate(seg_group)` loop body (lines 78-93),
starting at index `i`.  A `float()` failure (`none` from `convert`)
invalidates the whole construction, as the exception would in Python. -/
def buildSegs (rate : ℤ) (wav_path : String) : ℕ → List SegRecord → Option (List DataItem)
  | _, [] => some []
  | i, s :: ss =>
    (convert rate s.offset).bind (fun off =>
      (convert rate s.duration).bind (fun nf =>
        (buildSegs rate wav_path (i + 1) ss).map (fun rest =>
          { wav_path := wav_path, offset := off, n_frames := nf, sample_rate := rate,
            src_utt := s.en, tgt_utt := s.tgt, speaker_id := s.speaker_id,
            id := stem wav_path ++ "_" ++ Nat.repr i } :: rest)))

/-- Processing of one `groupby` group: stable sort by the offset string, then
enumerate (lines 77-93). -/
def buildGroup (rate : ℤ) (wav_path : String) (g : List SegRecord) : Option (List DataItem) :=
  buildSegs rate wav_path 0 (List.insertionSort segLe g)

/-- The full `self.data` construction of lines 73-93.  `rateOf` abstracts
`soundfile.info(path).samplerate`. -/
def buildData (rateOf : String → ℤ) (wav_root : String) (segs : List SegRecord) :
    Option (List DataItem) :=
  ((groupRuns segs).mapM (fun p =>
      buildGroup (rateOf (wav_root ++ "/" ++ p.1)) (wav_root ++ "/" ++ p.1) p.2)).map
    List.flatten

/-! ### `MUSTC.__init__` with its environment accesses (lines 53-71) -/

/-- One raw yaml record (before transcripts are merged in). -/
structure RawSeg where
  wav : String
  offset : String
  duration : String
  speaker_id : String
deriving DecidableEq

/-- Error outcomes of `MUSTC.__init__`.  `invalidArgument` is the line-54
assert; `missingDir` the line-57 assert; `missingFile` an `open` failure;
`countMismatch` the line-69 assert; `valueError` a failing `float()`. -/
inductive InitErr
  | invalidArgument
  | missingDir
  | missingFile
  | countMismatch
  | valueError
deriving DecidableEq

/-- The filesystem as seen by the script: directory queries, parsed yaml
files, transcript files, and `soundfile.info` sample rates. -/
structure CorpusEnv where
  isDir : String → Bool
  yamlSegs : String → Option (List RawSeg)
  textLines : String → Option (List String)
  rateOf : String → ℤ

/-- Merge the two transcript line lists into the yaml records (lines 66-71);
only called once both length asserts have passed. -/
def mergeSegs (raws : List RawSeg) (ens tgts : List String) : List SegRecord :=
  List.zipWith
    (fun (r : RawSeg) (p : String × String) =>
      { wav := r.wav, offset := r.offset, duration := r.duration,
        speaker_id := r.speaker_id, en := p.1, tgt := p.2 })
    raws (ens.zip tgts)

/-- `MUSTC.__init__(root, lang, split)`: result plus the trace of filesystem
accesses actually performed, in order.  The line-54 assert runs before any
path is even formed; directory checks short-circuit as `and` does. -/
def mustcInit (env : CorpusEnv) (root lang split : String) :
    Except InitErr (List DataItem) × List String :=
  if split ∈ SPLITS ∧ lang ∈ LANGUAGES then
    let dataRoot := root ++ "/en-" ++ lang ++ "/data/" ++ split
    let wav_root := dataRoot ++ "/wav"
    let txt_root := dataRoot ++ "/txt"
    if env.isDir dataRoot = false then
      (Except.error InitErr.missingDir, ["isdir " ++ dataRoot])
    else if env.isDir wav_root = false then
      (Except.error InitErr.missingDir, ["isdir " ++ dataRoot, "isdir " ++ wav_root])
    else if env.isDir txt_root = false then
      (Except.error InitErr.missingDir,
        ["isdir " ++ dataRoot, "isdir " ++ wav_root, "isdir " ++ txt_root])
    else
      let dirTrace := ["isdir " ++ dataRoot, "isdir " ++ wav_root, "isdir " ++ txt_root]
      let yamlPath := txt_root ++ "/" ++ split ++ ".yaml"
      match env.yamlSegs yamlPath with
      | none => (Except.error InitErr.missingFile, dirTrace ++ ["open " ++ yamlPath])
      | some raws =>
        let enPath := txt_root ++ "/" ++ split ++ ".en"
        match env.textLines enPath with
        | none =>
            (Except.error InitErr.missingFile,
              dirTrace ++ ["open " ++ yamlPath, "open " ++ enPath])
        | some ens =>
          if ens.length ≠ raws.length then
            (Except.error InitErr.countMismatch,
              dirTrace ++ ["open " ++ yamlPath, "open " ++ enPath])
          else
            let tgtPath := txt_root ++ "/" ++ split ++ "." ++ lang
            match env.textLines tgtPath with
            | none =>
                (Except.error InitErr.missingFile,
                  dirTrace ++ ["open " ++ yamlPath, "open " ++ enPath, "open " ++ tgtPath])
            | some tgts =>
              if tgts.length ≠ raws.length then
                (Except.error InitErr.countMismatch,
                  dirTrace ++ ["open " ++ yamlPath, "open " ++ enPath, "open " ++ tgtPath])
              else
                let fullTrace :=
                  dirTrace ++ ["open " ++ yamlPath, "open " ++ enPath, "open " ++ tgtPath]
                match buildData env.rateOf wav_root (mergeSegs raws ens tgts) with
                | none => (Except.error InitErr.valueError, fullTrace)
                | some items => (Except.ok items, fullTrace)
  else (Except.error InitErr.invalidArgument, [])

/-! ### Feature extraction and global-CMVN statistics (`process`, lines 120-152) -/

/-- The body of `if len(gcmvn_feature_list) < args.gcmvn_max_num:
gcmvn_feature_list.append(features)` (lines 142-143), guarded by
`split == 'train' and args.cmvn_type == "global"` (line 141).  The `none`
state models the variable `gcmvn_feature_list` not being defined yet. -/
def gcmvnStep {F : Type} (isTrainGlobal : Bool) (C : ℤ) (g : Option (List F)) (f : F) :
    Option (List F) :=
  if isTrainGlobal then
    match g with
    | some l => if (l.length : ℤ) < C then some (l ++ [f]) else some l
    | none => none
  else g

/-- One iteration of the `for split in MUSTC.SPLITS` extraction loop
(lines 125-149): reset the accumulator at the start of a global train split,
then save every feature and conditionally append it to the statistics
sample.  `featsOf` abstracts the dataset traversal plus
`extract_fbank_features` (both external to this file). -/
def splitExtractStep {F : Type} (global : Bool) (C : ℤ) (featsOf : String → List F)
    (st : List (String × F) × Option (List F)) (split : String) :
    List (String × F) × Option (List F) :=
  let g0 := if split == "train" && global then some [] else st.2
  (featsOf split).foldl
    (fun p f =>
      (p.1 ++ [(split, f)], gcmvnStep (split == "train" && global) C p.2 f))
    (st.1, g0)

/-- The whole extraction phase over `MUSTC.SPLITS`: every saved feature in
order, and the final statistics sample (if the accumulator was ever
created). -/
def extractLoop {F : Type} (global : Bool) (C : ℤ) (featsOf : String → List F) :
    List (String × F) × Option (List F) :=
  SPLITS.foldl (splitExtractStep global C featsOf) ([], none)

/-! ### Per-language pipeline effects (`process`, lines 105-218) -/

/-- Coarse observable effects of one `process` language iteration. -/
inductive Action
  | fetchSplit (split : String)
  | createZip
  | readZipManifest
  | writeManifest (fname : String)
  | genVocab (task : String)
  | genConfigYaml (task : String)
deriving DecidableEq

/-- Per-language environment: the already-existing archive (if
`zip_path.exists()`) and the features each split would produce. -/
structure LangEnv (F : Type) where
  zip : Option (List (String × F))
  featsOf : String → List F

/-- One iteration of `for lang in set(args.lang)` after the directory check
(lines 112-218): extraction runs only when no archive exists (line 120);
afterwards the zip manifest is read and one manifest per (split, task in
set(args.task)) is written, then per task a vocabulary and a config.
Returns the final archive content and the effect trace. -/
def processLang {F : Type} (global : Bool) (C : ℤ) (tasks : List String)
    (env : LangEnv F) : List (String × F) × List Action :=
  let ext : List (String × F) × List Action :=
    match env.zip with
    | some c => (c, [])
    | none => ((extractLoop global C env.featsOf).1, SPLITS.map Action.fetchSplit ++ [Action.createZip])
  let manifestActs : List Action :=
    Action.readZipManifest ::
      SPLITS.flatMap (fun s =>
        tasks.dedup.map (fun t => Action.writeManifest (s ++ "_" ++ t ++ ".tsv")))
  let vocabActs : List Action :=
    tasks.dedup.flatMap (fun t => [Action.genVocab t, Action.genConfigYaml t])
  (ext.1, ext.2 ++ manifestActs ++ vocabActs)

/-- Run `MUSTC(root, lang, split)` for every split in order, propagating the
first exception, as the uncaught asserts of the source do. -/
def checkSplits (env : CorpusEnv) (root lang : String) : List String → Except InitErr Unit
  | [] => Except.ok ()
  | s :: ss =>
    match (mustcInit env root lang s).1 with
    | Except.error e => Except.error e
    | Except.ok _ => checkSplits env root lang ss

/-- Outcome of one language of the `process` loop. -/
inductive LangOutcome
  | skipped
  | processed
deriving DecidableEq

/-- The `for lang in set(args.lang)` loop of `process` (lines 107-111): a
language whose `en-<lang>` directory is absent is skipped with a warning
(`continue`); otherwise the language is processed, and any exception raised
while processing it aborts the whole run (there is no try/except in
`process`), leaving the remaining languages unprocessed. -/
def runLangs (env : CorpusEnv) (root : String) :
    List String → Except (String × InitErr) (List (String × LangOutcome))
  | [] => Except.ok []
  | l :: ls =>
    if env.isDir (root ++ "/en-" ++ l) = false then
      (runLangs env root ls).map (fun r => (l, LangOutcome.skipped) :: r)
    else
      match checkSplits env root l SPLITS with
      | Except.error e => Except.error (l, e)
      | Except.ok _ => (runLangs env root ls).map (fun r => (l, LangOutcome.processed) :: r)

/-- `process` over the requested languages (`set(args.lang)` modelled as
`List.dedup`, see the header note). -/
def processAll (env : CorpusEnv) (root : String) (langs : List String) :
    Except (String × InitErr) (List (String × LangOutcome)) :=
  runLangs env root langs.dedup

/-! ### Manifest generation (`process`, lines 159-185) -/

/-- One dataset item as consumed by the manifest loop (line 169). -/
structure SplitItem where
  utt_id : String
  nsamples : ℤ
  sr : ℤ
  src_utt : String
  tgt_utt : String
  speaker : String
deriving DecidableEq

/-- One manifest row (columns of `MANIFEST_COLUMNS`). -/
structure Row where
  id : String
  audio : String
  n_frames : ℤ
  tgt_text : String
  speaker : String
deriving DecidableEq

/-- `duration_ms = int(wav.size(1) / sr * 1000)` (line 172): the integer
sample count is divided by the rate in double arithmetic, the quotient is
multiplied by 1000 with one further rounding, and the product truncated
toward zero, exactly as CPython computes it. -/
def duration_ms_py (nsamples sr : ℤ) : ℤ := ftrunc (fmulInt (fdivInt nsamples sr) 1000)

/-- `int(1 + (duration_ms - 25) / 10)` (line 173): the exact value of
`1 + (d - 25) / 10` is `(10 + (d - 25)) / 10`, truncated toward zero. -/
def n_frames_py (duration_ms : ℤ) : ℤ := pyTrunc (10 + (duration_ms - 25)) 10

/-- The `n_frames` value recorded in a manifest row for a decoded waveform of
`nsamples` samples at rate `sr`. -/
def manifest_n_frames (nsamples sr : ℤ) : ℤ := n_frames_py (duration_ms_py nsamples sr)

/-- The framing formula as the claim states it:
`1 + floor((duration_ms - 25) / 10)`; `Int.fdiv` is floor division. -/
def claimed_n_frames (duration_ms : ℤ) : ℤ := 1 + Int.fdiv (duration_ms - 25) 10

/-- Manifest row built for one item (lines 170-176 and 182). `zipman`
abstracts `zip_manifest` from `get_zip_manifest`. -/
def toRow (zipman : String → String) (task : String) (it : SplitItem) : Row :=
  { id := it.utt_id, audio := zipman it.utt_id,
    n_frames := manifest_n_frames it.nsamples it.sr,
    tgt_text := if task == "asr" then it.src_utt else it.tgt_utt,
    speaker := it.speaker }

/-- Thresholds of the length filter. -/
structure FilterParams where
  minFrames : ℤ
  maxFrames : ℤ
  maxFramesPerChar : ℤ
deriving DecidableEq

/-- Modelled from the spec: `filter_manifest_df` lives in
`examples/speech_to_text/data_utils.py`, which is not part of this
repository snapshot.  Per the spec (section 4.6), a row is kept iff its
frame count lies in the configured `[min, max]` band and its
source-frames-to-target-characters ratio is not excessive; the filter acts
only on the training split, all other splits pass through unfiltered. -/
def keepRow (p : FilterParams) (r : Row) : Bool :=
  decide (p.minFrames ≤ r.n_frames) && decide (r.n_frames ≤ p.maxFrames) &&
    decide (r.n_frames ≤ p.maxFramesPerChar * (r.tgt_text.length : ℤ))

/-- Modelled from the spec: `filter_manifest_df(df, is_train_split=...)`. -/
def filter_manifest_df (p : FilterParams) (rows : List Row) (is_train_split : Bool) :
    List Row :=
  if is_train_split then rows.filter (keepRow p) else rows

/-- The manifest written for `(split, task)` (lines 163-185):
`is_train_split = split.startswith("train")`. -/
def manifestRows (p : FilterParams) (zipman : String → String) (split task : String)
    (items : List SplitItem) : List Row :=
  filter_manifest_df p (items.map (toRow zipman task)) (pyStartsWith split "train")

/-! ### Concrete inputs used by the scenario theorems below -/

/-- First record of the C1 scenario: recording a, textual offset "10.0". -/
def c1seg0 : SegRecord :=
  { wav := "a.wav", offset := "10.0", duration := "1.0", speaker_id := "s1",
    en := "e1", tgt := "t1" }

/-- Second record: recording a, textual offset "9.0" (numerically below 10.0,
lexicographically above "10.0"). -/
def c1seg1 : SegRecord :=
  { wav := "a.wav", offset := "9.0", duration := "1.0", speaker_id := "s2",
    en := "e2", tgt := "t2" }

/-- Third record: a record of recording b interleaved between records of
recording a. -/
def c1seg2 : SegRecord :=
  { wav := "b.wav", offset := "0.0", duration := "1.0", speaker_id := "s3",
    en := "e3", tgt := "t3" }

/-- Fourth record: recording a again, after the recording-b record. -/
def c1seg3 : SegRecord :=
  { wav := "a.wav", offset := "5.0", duration := "1.0", speaker_id := "s4",
    en := "e4", tgt := "t4" }

/-- The C1 scenario split: two interleaved recordings, with offset strings
whose lexicographic and numeric orders disagree. -/
def c1segs : List SegRecord := [c1seg0, c1seg1, c1seg2, c1seg3]

/-- The C6 scenario split: three segments of one 16 kHz recording at offsets
0.0 s / 2.0 s / 5.0 s with durations 1.5 s / 2.0 s / 1.0 s. -/
def c6segs : List SegRecord :=
  [{ wav := "talk.wav", offset := "0.0", duration := "1.5", speaker_id := "sp",
     en := "e0", tgt := "t0" },
   { wav := "talk.wav", offset := "2.0", duration := "2.0", speaker_id := "sp",
     en := "e1", tgt := "t1" },
   { wav := "talk.wav", offset := "5.0", duration := "1.0", speaker_id := "sp",
     en := "e2", tgt := "t2" }]

/-- The single yaml record of the C4 environment. -/
def c4Raw : RawSeg :=
  { wav := "a.wav", offset := "0.0", duration := "1.0", speaker_id := "s" }

/-- C4 environment: every directory exists, every split yaml holds exactly one
segment and every transcript file exactly one line — except the English
train transcript of en-de, which holds two lines, so en-de trips the
line-69 count assert while en-ja is fully valid. -/
def c4Env : CorpusEnv :=
  { isDir := fun _ => true,
    yamlSegs := fun _ => some [c4Raw],
    textLines := fun p =>
      if p = "r/en-de/data/train/txt/train.en" then some ["x", "y"] else some ["x"],
    rateOf := fun _ => 16000 }

/-- Feature lists per split for the C3 witness: three train arrays, one array
in every other split. -/
def c3feats : String → List ℕ := fun s => if s = "train" then [10, 20, 30] else [7]

/-- Filter thresholds for the C7 witness: minimum 10 frames. -/
def c7p : FilterParams := { minFrames := 10, maxFrames := 3000, maxFramesPerChar := 1000 }

/-- Zip-manifest lookup used by the C7 and C9 scenarios. -/
def cxZipman : String → String := fun u => u ++ ".zip"

/-- A 110 ms item (9 frames by the recorded formula): fails the 10-frame
minimum of `c7p`. -/
def c7item : SplitItem :=
  { utt_id := "u", nsamples := 110, sr := 1000, src_utt := "hi", tgt_utt := "ho",
    speaker := "s" }

/-- Filter thresholds for the C9 scenario: ratio cap 400 frames per target
character. -/
def c9p : FilterParams := { minFrames := 0, maxFrames := 3000, maxFramesPerChar := 400 }

/-- A 10 s item (998 frames): with the `c9p` ratio cap it survives filtering
against its 5-character English text but not against its 1-character target
text. -/
def c9item : SplitItem :=
  { utt_id := "u0", nsamples := 160000, sr := 16000, src_utt := "hello", tgt_utt := "a",
    speaker := "spk" }

/-! ### Helper lemmas -/

theorem lexLt_irrefl : ∀ x : List Char, lexLt x x = false
  | [] => rfl
  | c :: cs => by simp [lexLt, lexLt_irrefl cs]

theorem lexLt_asymm : ∀ x y : List Char, lexLt x y = true → lexLt y x = false := by
  intro x
  induction x with
  | nil =>
    intro y h
    cases y with
    | nil => rfl
    | cons b bs => rfl
  | cons a as ih =>
    intro y h
    cases y with
    | nil => simp [lexLt] at h
    | cons b bs =>
      simp only [lexLt] at h ⊢
      by_cases hab : a < b
      · rw [if_neg (lt_asymm hab), if_pos hab]
      · rw [if_neg hab] at h
        by_cases hba : b < a
        · rw [if_pos hba] at h
          exact Bool.noConfusion h
        · rw [if_neg hba] at h
          rw [if_neg hba, if_neg hab]
          exact ih bs h

theorem lexLt_neg_trans : ∀ x y z : List Char,
    lexLt y x = false → lexLt z y = false → lexLt z x = false := by
  intro x
  induction x with
  | nil =>
    intro y z h1 h2
    cases z with
    | nil => rfl
    | cons c cs => rfl
  | cons a as ih =>
    intro y z h1 h2
    cases y with
    | nil => simp [lexLt] at h1
    | cons b bs =>
      cases z with
      | nil => simp [lexLt] at h2
      | cons c cs =>
        simp only [lexLt] at h1 h2 ⊢
        have hba : ¬ b < a := by
          intro hc
          rw [if_pos hc] at h1
          exact Bool.noConfusion h1
        have hcb : ¬ c < b := by
          intro hc
          rw [if_pos hc] at h2
          exact Bool.noConfusion h2
        have hca : ¬ c < a := fun hc => hcb (lt_of_lt_of_le hc (le_of_not_lt hba))
        rw [if_neg hca]
        by_cases hac : a < c
        · rw [if_pos hac]
        · rw [if_neg hac]
          have hac2 : a = c := le_antisymm (le_of_not_lt hca) (le_of_not_lt hac)
          have hbc : b ≤ c := le_of_not_lt hcb
          have hab2 : a = b := le_antisymm (le_of_not_lt hba) (by rw [hac2]; exact hbc)
          have hbc2 : b = c := hab2.symm.trans hac2
          have hnab : ¬ a < b := by rw [hab2]; exact lt_irrefl b
          have hnbc : ¬ b < c := by rw [hbc2]; exact lt_irrefl c
          rw [if_neg hba, if_neg hnab] at h1
          rw [if_neg hcb, if_neg hnbc] at h2
          exact ih bs cs h1 h2

theorem segLe_total : IsTotal SegRecord segLe := by
  constructor
  intro a b
  cases h : pyStrLt b.offset a.offset with
  | false => exact Or.inl h
  | true =>
    exact Or.inr (lexLt_asymm b.offset.data a.offset.data h)

theorem segLe_trans : IsTrans SegRecord segLe := by
  constructor
  intro a b c h1 h2
  exact lexLt_neg_trans a.offset.data b.offset.data c.offset.data h1 h2

/-- Strictly-smaller keys cannot be equal: used for stability. -/
theorem segLe_not_of_eq_key {a b : SegRecord} (h : ¬ segLe a b)
    (hk : b.offset = a.offset) : False := by
  unfold segLe pyStrLt at h
  rw [hk, lexLt_irrefl] at h
  exact h rfl

/-- Stability of `orderedInsert` seen through per-key filtering. -/
theorem filter_orderedInsert_key (key : String) (a : SegRecord) :
    ∀ l : List SegRecord,
      (List.orderedInsert segLe a l).filter (fun s => s.offset == key) =
        if a.offset == key then a :: l.filter (fun s => s.offset == key)
        else l.filter (fun s => s.offset == key) := by
  intro l
  induction l with
  | nil =>
    rw [List.orderedInsert, List.filter_cons]
  | cons b t ih =>
    rw [List.orderedInsert]
    by_cases hr : segLe a b
    · rw [if_pos hr, List.filter_cons]
    · rw [if_neg hr, List.filter_cons, ih, List.filter_cons]
      by_cases hk : a.offset == key
      · have hbk : (b.offset == key) = false := by
          cases hbe : b.offset == key with
          | false => rfl
          | true =>
            exfalso
            apply segLe_not_of_eq_key hr
            have e1 : a.offset = key := by simpa using hk
            have e2 : b.offset = key := by simpa using hbe
            rw [e1, e2]
        simp [hk, hbk]
      · simp [hk]

/-- Stability of the group sort: records with any fixed offset key keep their
original relative order. -/
theorem filter_insertionSort_key (key : String) :
    ∀ g : List SegRecord,
      (List.insertionSort segLe g).filter (fun s => s.offset == key) =
        g.filter (fun s => s.offset == key) := by
  intro g
  induction g with
  | nil => rfl
  | cons s t ih =>
    rw [List.insertionSort, filter_orderedInsert_key, List.filter]
    by_cases hk : s.offset == key
    · rw [if_pos hk, ih, hk]
    · rw [if_neg hk, ih]
      rcases hke : s.offset == key with _ | _
      · rfl
      · exact absurd hke (by simpa using hk)

/-- Identifiers assigned by `buildSegs`: consecutive indices from `i`. -/
theorem buildSegs_ids (rate : ℤ) (wp : String) :
    ∀ (l : List SegRecord) (i : ℕ) (items : List DataItem),
      buildSegs rate wp i l = some items →
      items.map DataItem.id =
        (List.range' i l.length).map (fun k => stem wp ++ "_" ++ Nat.repr k) := by
  intro l
  induction l with
  | nil =>
    intro i items h
    have h2 : some ([] : List DataItem) = some items := h
    obtain rfl : ([] : List DataItem) = items := Option.some.inj h2
    simp
  | cons s ss ih =>
    intro i items h
    simp only [buildSegs] at h
    cases ho : convert rate s.offset with
    | none => rw [ho] at h; simp at h
    | some off =>
      rw [ho] at h
      cases hd : convert rate s.duration with
      | none => rw [hd] at h; simp at h
      | some nf =>
        rw [hd] at h
        cases hr : buildSegs rate wp (i + 1) ss with
        | none => rw [hr] at h; simp at h
        | some rest =>
          rw [hr] at h
          simp only [Option.some_bind, Option.map_some', Option.some.injEq] at h
          subst h
          rw [List.length_cons, List.range'_succ, List.map_cons, List.map_cons]
          exact congrArg _ (ih (i + 1) rest hr)

/-- `buildSegs` preserves length. -/
theorem buildSegs_length (rate : ℤ) (wp : String) :
    ∀ (l : List SegRecord) (i : ℕ) (items : List DataItem),
      buildSegs rate wp i l = some items → items.length = l.length := by
  intro l
  induction l with
  | nil =>
    intro i items h
    have h2 : some ([] : List DataItem) = some items := h
    obtain rfl : ([] : List DataItem) = items := Option.some.inj h2
    rfl
  | cons s ss ih =>
    intro i items h
    simp only [buildSegs] at h
    cases ho : convert rate s.offset with
    | none => rw [ho] at h; simp at h
    | some off =>
      rw [ho] at h
      cases hd : convert rate s.duration with
      | none => rw [hd] at h; simp at h
      | some nf =>
        rw [hd] at h
        cases hr : buildSegs rate wp (i + 1) ss with
        | none => rw [hr] at h; simp at h
        | some rest =>
          rw [hr] at h
          simp only [Option.some_bind, Option.map_some', Option.some.injEq] at h
          subst h
          simp [ih (i + 1) rest hr]


/-! ### Claim theorems -/

/-- C1 counterexample: on a split whose records interleave two recordings and
whose offset strings order differently as text and as numbers, the builder
(i) splits recording a into two groups (the id a_0 is assigned twice), and
(ii) within the first group gives the segment with offset 10.0 s (160000
samples) the index 0 and the segment with offset 9.0 s (144000 samples) the
index 1 — the segment with the smaller offset receives the larger index,
because the sort key is the offset *string*, not its numeric value. -/
theorem C1_counterexample :
    (buildData (fun _ => 16000) "wav" c1segs).map
        (fun l => l.map (fun d => (d.id, d.wav_path, d.offset))) =
      some [("a_0", "wav/a.wav", 160000), ("a_1", "wav/a.wav", 144000),
        ("b_0", "wav/b.wav", 0), ("a_0", "wav/a.wav", 80000)] ∧
      (buildData (fun _ => 16000) "wav" c1segs).map
        (fun l => (l.map (fun d => d.id)).count "a_0") = some 2 := by
  decide

/-- C1 (amended): for every split, the builder groups *maximal consecutive
runs* of records sharing one recording filename; each group is stably sorted
by the offset field compared as a string (code-point lexicographic order,
ties keeping the original record order), and utterance ids are the recording
stem plus a zero-based within-group index in that sorted order; hence within
a group a lexicographically smaller offset string never receives a larger
index. -/
theorem C1_amended (rateOf : String → ℤ) (wav_root : String) (segs : List SegRecord) :
    ∀ p ∈ groupRuns segs,
      List.Sorted segLe (List.insertionSort segLe p.2) ∧
      (∀ key : String,
        (List.insertionSort segLe p.2).filter (fun s => s.offset == key) =
          p.2.filter (fun s => s.offset == key)) ∧
      (∀ items,
        buildGroup (rateOf (wav_root ++ "/" ++ p.1)) (wav_root ++ "/" ++ p.1) p.2 =
            some items →
        items.map DataItem.id =
          (List.range items.length).map
            (fun i => stem (wav_root ++ "/" ++ p.1) ++ "_" ++ Nat.repr i)) := by
  intro p hp
  refine ⟨?_, ?_, ?_⟩
  · haveI := segLe_total
    haveI := segLe_trans
    exact List.sorted_insertionSort segLe p.2
  · intro key
    exact filter_insertionSort_key key p.2
  · intro items h
    unfold buildGroup at h
    have hlen : items.length = (List.insertionSort segLe p.2).length :=
      buildSegs_length _ _ _ 0 items h
    have hids := buildSegs_ids _ _ (List.insertionSort segLe p.2) 0 items h
    rw [hids, hlen, List.range_eq_range']

/-- C1 amended witness at the concrete scenario group. -/
theorem C1_amended_witness :
    (("a.wav", [c1seg0, c1seg1]) ∈ groupRuns c1segs) ∧
      List.Sorted segLe (List.insertionSort segLe [c1seg0, c1seg1]) :=
  ⟨by decide,
    (C1_amended (fun _ => 16000) "wav" c1segs ("a.wav", [c1seg0, c1seg1]) (by decide)).1⟩

/-- C2 counterexample: a decoded waveform of 14 ms (14 samples at 1000 Hz)
gets n_frames = 0 recorded, while the claimed formula
1 + floor((14 - 25) / 10) equals -1: Python int() truncates toward zero and
does not floor below 25 ms. -/
theorem C2_counterexample :
    duration_ms_py 14 1000 = 14 ∧ manifest_n_frames 14 1000 = 0 ∧
      claimed_n_frames 14 = -1 ∧ manifest_n_frames 14 1000 ≠ claimed_n_frames 14 := by
  decide

/-- C2 (amended): the recorded n_frames is the truncation toward zero of
1 + (duration_ms - 25) / 10, which coincides with the floor formula
1 + floor((duration_ms - 25) / 10) for every duration of at least 15 ms (in
particular for every duration of at least 25 ms); a 1000 ms waveform yields
98. -/
theorem C2_amended (nsamples sr d : ℤ) (hd : duration_ms_py nsamples sr = d)
    (h15 : 15 ≤ d) :
    manifest_n_frames nsamples sr = claimed_n_frames d ∧
      manifest_n_frames 16000 16000 = 98 := by
  constructor
  · unfold manifest_n_frames n_frames_py pyTrunc claimed_n_frames
    rw [hd]
    have e1 : (10 : ℤ) + (d - 25) = d - 15 := by ring
    rw [e1, Int.tdiv_eq_ediv (by omega) (by omega), Int.fdiv_eq_ediv _ (by omega)]
    have e2 : d - 15 = (d - 25) + 1 * 10 := by ring
    rw [e2, Int.add_mul_ediv_right _ _ (by omega : (10 : ℤ) ≠ 0)]
    omega
  · decide

/-- C2 amended witness: the 1000 ms scenario. -/
theorem C2_amended_witness :
    duration_ms_py 16000 16000 = 1000 ∧ (15 : ℤ) ≤ 1000 ∧
      manifest_n_frames 16000 16000 = claimed_n_frames 1000 :=
  ⟨by decide, by decide, (C2_amended 16000 16000 1000 (by decide) (by decide)).1⟩

/-- C8: constructing the per-split dataset with a split outside SPLITS or a
language outside LANGUAGES fails with the invalid-argument assert before any
filesystem access happens: the access trace is empty. -/
theorem C8_invalid_arguments (env : CorpusEnv) (root lang split : String)
    (h : ¬ (split ∈ SPLITS ∧ lang ∈ LANGUAGES)) :
    mustcInit env root lang split = (Except.error InitErr.invalidArgument, []) := by
  unfold mustcInit
  rw [if_neg h]

/-- C8 witness: the unknown split name foo. -/
theorem C8_witness :
    (¬ (("foo" : String) ∈ SPLITS ∧ ("de" : String) ∈ LANGUAGES)) ∧
      mustcInit
          { isDir := fun _ => true, yamlSegs := fun _ => none,
            textLines := fun _ => none, rateOf := fun _ => 0 } "r" "de" "foo" =
        (Except.error InitErr.invalidArgument, []) :=
  ⟨by decide, C8_invalid_arguments _ "r" "de" "foo" (by decide)⟩



/-- Folding the extraction step when the train-and-global guard is off: the
statistics state passes through untouched while every feature is saved. -/
theorem foldl_extract_false {F : Type} (C : ℤ) (split : String) :
    ∀ (l : List F) (sv : List (String × F)) (g : Option (List F)),
      l.foldl (fun p f => (p.1 ++ [(split, f)], gcmvnStep false C p.2 f)) (sv, g) =
        (sv ++ l.map (fun f => (split, f)), g) := by
  intro l
  induction l with
  | nil => intro sv g; simp
  | cons f t ih =>
    intro sv g
    rw [List.foldl_cons]
    have hg : gcmvnStep false C g f = g := by simp [gcmvnStep]
    rw [hg, ih]
    simp

/-- Folding the extraction step when the train-and-global guard is on: every
feature is saved, and the statistics sample grows by the cap-limited prefix
of the features. -/
theorem foldl_extract_true {F : Type} (C : ℤ) (split : String) :
    ∀ (l : List F) (sv : List (String × F)) (acc : List F),
      l.foldl (fun p f => (p.1 ++ [(split, f)], gcmvnStep true C p.2 f)) (sv, some acc) =
        (sv ++ l.map (fun f => (split, f)),
          some (acc ++ l.take (C - acc.length).toNat)) := by
  intro l
  induction l with
  | nil => intro sv acc; simp
  | cons f t ih =>
    intro sv acc
    rw [List.foldl_cons]
    by_cases hlt : (acc.length : ℤ) < C
    · have hg : gcmvnStep true C (some acc) f = some (acc ++ [f]) := by
        simp [gcmvnStep, hlt]
      rw [hg, ih]
      have hk : (C - (acc.length : ℤ)).toNat = (C - ((acc ++ [f]).length : ℤ)).toNat + 1 := by
        simp only [List.length_append, List.length_cons, List.length_nil]
        omega
      rw [hk, List.take_succ_cons]
      simp
    · have hg : gcmvnStep true C (some acc) f = some acc := by
        simp [gcmvnStep, hlt]
      rw [hg, ih]
      have hk : (C - (acc.length : ℤ)).toNat = 0 := by omega
      rw [hk]
      simp

/-- C3: with global normalization, the extraction pass feeds the statistics
sample from the train split only — the final sample is exactly the first
`min(N, C)` train feature arrays (the cap comparison uses < before each
append, so the sample never exceeds C) — while every array of every split is
still extracted and saved for packaging. -/
theorem C3_gcmvn_cap {F : Type} (C : ℤ) (featsOf : String → List F) (hC : 0 ≤ C) :
    extractLoop true C featsOf =
      (SPLITS.flatMap (fun s => (featsOf s).map (fun f => (s, f))),
        some ((featsOf "train").take C.toNat)) ∧
      (((featsOf "train").take C.toNat).length : ℤ) =
        min ((featsOf "train").length : ℤ) C := by
  constructor
  · have htr : ((("train" : String) == "train") && true) = true := by decide
    have hdev : ((("dev" : String) == "train") && true) = false := by decide
    have hcom : ((("tst-COMMON" : String) == "train") && true) = false := by decide
    have hhe : ((("tst-HE" : String) == "train") && true) = false := by decide
    unfold extractLoop SPLITS
    rw [List.foldl_cons, List.foldl_cons, List.foldl_cons, List.foldl_cons, List.foldl_nil]
    unfold splitExtractStep
    simp only [htr, hdev, hcom, hhe, Bool.false_eq_true, if_true, if_false]
    rw [foldl_extract_true, foldl_extract_false, foldl_extract_false, foldl_extract_false]
    simp [List.flatMap_cons, List.append_assoc]
  · rw [List.length_take]
    push_cast
    omega

/-- C3 witness: cap 2 against a train split of three arrays. -/
theorem C3_witness :
    (0 : ℤ) ≤ 2 ∧
      extractLoop true 2 c3feats =
        (SPLITS.flatMap (fun s => (c3feats s).map (fun f => (s, f))),
          some ((c3feats "train").take (2 : ℤ).toNat)) :=
  ⟨by decide, (C3_gcmvn_cap 2 c3feats (by decide)).1⟩

/-- C4 counterexample: with en-de present but integrity-broken (transcript
line count mismatch on its train split) and en-ja fully valid, requesting
both languages aborts the whole run at de — ja is left unprocessed — even
though requesting ja alone succeeds.  This refutes the claim that a
CorpusIntegrityError is fatal for that language only with the run continuing
over the remaining languages. -/
theorem C4_counterexample :
    processAll c4Env "r" ["de", "ja"] = Except.error ("de", InitErr.countMismatch) ∧
      processAll c4Env "r" ["ja"] = Except.ok [("ja", LangOutcome.processed)] :=
  ⟨by rfl, by rfl⟩

/-- C4 (amended): a language whose en-lang corpus directory is absent is
skipped with a warning and the run continues with the rest; but a
CorpusIntegrityError raised while processing a present language aborts the
entire run (the asserts are uncaught), regardless of which languages
remain. -/
theorem C4_amended (env : CorpusEnv) (root l : String) (ls : List String) :
    (env.isDir (root ++ "/en-" ++ l) = false →
      runLangs env root (l :: ls) =
        (runLangs env root ls).map (fun r => (l, LangOutcome.skipped) :: r)) ∧
      (∀ e, env.isDir (root ++ "/en-" ++ l) = true →
        checkSplits env root l SPLITS = Except.error e →
        runLangs env root (l :: ls) = Except.error (l, e)) := by
  constructor
  · intro h
    rw [runLangs, if_pos h]
  · intro e h1 h2
    unfold runLangs
    rw [h1, h2]
    simp

/-- C4 amended witness: the concrete broken-de environment. -/
theorem C4_amended_witness :
    runLangs c4Env "r" ["de", "ja"] = Except.error ("de", InitErr.countMismatch) :=
  (C4_amended c4Env "r" "de" ["ja"]).2 InitErr.countMismatch (by rfl) (by rfl)

/-- C5: when the archive already exists, no split is fetched for extraction
and no archive is created — the archive content is reused unchanged — and
the run still proceeds to reading the zip manifest (and to the manifest
writes that follow it in the trace). -/
theorem C5_existing_archive_reused {F : Type} (global : Bool) (C : ℤ)
    (tasks : List String) (env : LangEnv F) (c : List (String × F))
    (hzip : env.zip = some c) :
    (processLang global C tasks env).1 = c ∧
      (∀ s, Action.fetchSplit s ∉ (processLang global C tasks env).2) ∧
      Action.createZip ∉ (processLang global C tasks env).2 ∧
      Action.readZipManifest ∈ (processLang global C tasks env).2 := by
  unfold processLang
  rw [hzip]
  refine ⟨rfl, ?_, ?_, ?_⟩
  · intro s
    simp [List.mem_flatMap]
  · simp [List.mem_flatMap]
  · simp

/-- C5 witness: a singleton pre-existing archive. -/
theorem C5_witness :
    (({ zip := some [("u0", 1)], featsOf := fun _ => [] } : LangEnv ℕ).zip =
        some [("u0", 1)]) ∧
      (processLang true 5 ["asr"]
          ({ zip := some [("u0", 1)], featsOf := fun _ => [] } : LangEnv ℕ)).1 =
        [("u0", 1)] :=
  ⟨rfl, (C5_existing_archive_reused true 5 ["asr"] _ _ rfl).1⟩

/-- C7: the length filter is applied exactly for the split named train
(`split.startswith("train")` holds for no other member of SPLITS): a row
failing the filter still appears in the dev and test manifests but not in
the train manifest.  The filter itself is modelled from the spec, since
`filter_manifest_df` is outside this repository snapshot. -/
theorem C7_train_only_filtering (p : FilterParams) (zipman : String → String)
    (task : String) (items : List SplitItem) (r : Row) (hfail : keepRow p r = false) :
    (∀ s ∈ SPLITS, pyStartsWith s "train" = decide (s = "train")) ∧
      (∀ s ∈ SPLITS, s ≠ "train" →
        manifestRows p zipman s task items = items.map (toRow zipman task)) ∧
      (r ∈ items.map (toRow zipman task) →
        (r ∈ manifestRows p zipman "dev" task items ∧
          r ∈ manifestRows p zipman "tst-COMMON" task items ∧
          r ∈ manifestRows p zipman "tst-HE" task items ∧
          r ∉ manifestRows p zipman "train" task items)) := by
  refine ⟨?_, ?_, ?_⟩
  · intro s hs
    simp only [SPLITS, List.mem_cons, List.not_mem_nil, or_false] at hs
    rcases hs with rfl | rfl | rfl | rfl <;> decide
  · intro s hs hneq
    have hf : pyStartsWith s "train" = false := by
      simp only [SPLITS, List.mem_cons, List.not_mem_nil, or_false] at hs
      rcases hs with rfl | rfl | rfl | rfl
      · exact absurd rfl hneq
      · decide
      · decide
      · decide
    unfold manifestRows filter_manifest_df
    rw [hf]
    simp
  · intro hmem
    have hdev : pyStartsWith "dev" "train" = false := by decide
    have hcom : pyStartsWith "tst-COMMON" "train" = false := by decide
    have hhe : pyStartsWith "tst-HE" "train" = false := by decide
    have htr : pyStartsWith "train" "train" = true := by decide
    refine ⟨?_, ?_, ?_, ?_⟩
    · unfold manifestRows filter_manifest_df
      rw [hdev]
      simpa using hmem
    · unfold manifestRows filter_manifest_df
      rw [hcom]
      simpa using hmem
    · unfold manifestRows filter_manifest_df
      rw [hhe]
      simpa using hmem
    · unfold manifestRows filter_manifest_df
      rw [htr]
      simp only [if_true]
      intro hin
      rw [List.mem_filter] at hin
      rw [hfail] at hin
      exact Bool.noConfusion hin.2

/-- C7 witness: a 9-frame row against a 10-frame minimum. -/
theorem C7_witness :
    keepRow c7p (toRow cxZipman "asr" c7item) = false ∧
      (toRow cxZipman "asr" c7item ∈ manifestRows c7p cxZipman "dev" "asr" [c7item] ∧
        toRow cxZipman "asr" c7item ∈
          manifestRows c7p cxZipman "tst-COMMON" "asr" [c7item] ∧
        toRow cxZipman "asr" c7item ∈ manifestRows c7p cxZipman "tst-HE" "asr" [c7item] ∧
        toRow cxZipman "asr" c7item ∉ manifestRows c7p cxZipman "train" "asr" [c7item]) :=
  ⟨by decide,
    (C7_train_only_filtering c7p cxZipman "asr" [c7item] _ (by decide)).2.2 (by decide)⟩

/-- C9 counterexample: for the *training* split the asr and st manifests can
disagree even in the id/audio/n_frames/speaker columns, because the
ratio part of the length filter reads tgt_text, which differs between the
tasks: a 998-frame row with a 5-character English text and a 1-character
target text survives the asr filter but not the st filter. -/
theorem C9_counterexample :
    (manifestRows c9p cxZipman "train" "asr" [c9item]).map
        (fun r => (r.id, r.audio, r.n_frames, r.speaker)) =
      [("u0", "u0.zip", 998, "spk")] ∧
      (manifestRows c9p cxZipman "train" "st" [c9item]).map
        (fun r => (r.id, r.audio, r.n_frames, r.speaker)) = [] := by
  decide

/-- C9 (amended): for every split other than train, the asr and st manifests
hold exactly the same rows in the same order in the id, audio, n_frames and
speaker columns, differing only in tgt_text, which is the English source
text for asr and the target-language text for st; for the training split the
task-dependent ratio filter may drop different rows. -/
theorem C9_amended (p : FilterParams) (zipman : String → String) (split : String)
    (items : List SplitItem) (hs : split ∈ SPLITS) (hn : split ≠ "train") :
    (manifestRows p zipman split "asr" items).map
        (fun r => (r.id, r.audio, r.n_frames, r.speaker)) =
      (manifestRows p zipman split "st" items).map
        (fun r => (r.id, r.audio, r.n_frames, r.speaker)) ∧
      (manifestRows p zipman split "asr" items).map Row.tgt_text =
        items.map SplitItem.src_utt ∧
      (manifestRows p zipman split "st" items).map Row.tgt_text =
        items.map SplitItem.tgt_utt := by
  have hf : pyStartsWith split "train" = false := by
    simp only [SPLITS, List.mem_cons, List.not_mem_nil, or_false] at hs
    rcases hs with rfl | rfl | rfl | rfl
    · exact absurd rfl hn
    · decide
    · decide
    · decide
  unfold manifestRows filter_manifest_df
  rw [hf]
  simp only [Bool.false_eq_true, if_false, List.map_map]
  refine ⟨?_, ?_, ?_⟩ <;> simp [toRow, Function.comp]

/-- C9 amended witness: the dev split of the C9 scenario. -/
theorem C9_amended_witness :
    (manifestRows c9p cxZipman "dev" "asr" [c9item]).map
        (fun r => (r.id, r.audio, r.n_frames, r.speaker)) =
      (manifestRows c9p cxZipman "dev" "st" [c9item]).map
        (fun r => (r.id, r.audio, r.n_frames, r.speaker)) :=
  (C9_amended c9p cxZipman "dev" [c9item] (by decide) (by decide)).1

/-- C10: duplicated command-line languages and tasks have no additional
effect: prepending an already-requested language leaves the whole run
unchanged, every requested language occurs exactly once in the iterated
list, and prepending an already-requested task leaves the per-language
archive result and effect trace (manifest writes, vocabulary and config
generation) unchanged. -/
theorem C10_duplicate_arguments {F : Type} (env : CorpusEnv) (root : String)
    (langs : List String) (l : String) (hl : l ∈ langs)
    (global : Bool) (C : ℤ) (tasks : List String) (t : String) (ht : t ∈ tasks)
    (lenv : LangEnv F) :
    processAll env root (l :: langs) = processAll env root langs ∧
      langs.dedup.count l = 1 ∧
      processLang global C (t :: tasks) lenv = processLang global C tasks lenv := by
  refine ⟨?_, ?_, ?_⟩
  · unfold processAll
    rw [List.dedup_cons_of_mem hl]
  · rw [List.count_dedup]
    simp [hl]
  · unfold processLang
    rw [List.dedup_cons_of_mem ht]

/-- C10 witness: duplicated de and asr requests. -/
theorem C10_witness :
    processAll
        ({ isDir := fun _ => false, yamlSegs := fun _ => none,
           textLines := fun _ => none, rateOf := fun _ => 0 } : CorpusEnv)
        "r" ["de", "de"] =
      processAll
        ({ isDir := fun _ => false, yamlSegs := fun _ => none,
           textLines := fun _ => none, rateOf := fun _ => 0 } : CorpusEnv)
        "r" ["de"] ∧
      (["de"] : List String).dedup.count "de" = 1 ∧
      processLang true 0 ["asr", "asr"]
          ({ zip := none, featsOf := fun _ => [] } : LangEnv ℕ) =
        processLang true 0 ["asr"] ({ zip := none, featsOf := fun _ => [] } : LangEnv ℕ) :=
  C10_duplicate_arguments
    ({ isDir := fun _ => false, yamlSegs := fun _ => none,
       textLines := fun _ => none, rateOf := fun _ => 0 } : CorpusEnv)
    "r" ["de"] "de" (by decide) true 0 ["asr"] "asr" (by decide)
    ({ zip := none, featsOf := fun _ => [] } : LangEnv ℕ)




/-- C6 counterexample: the source computes int(float(s) * sample_rate) in
binary64 double arithmetic, which is not the claimed floor of the exact
product: for the offset string 0.25025 at 16000 Hz the double product
truncates to 4003 samples while floor(0.25025 * 16000) = 4004, because
float("0.25025") rounds below the decimal value. -/
theorem C6_counterexample :
    parseDecimal "0.25025" = some (25025, 5) ∧
      convert 16000 "0.25025" = some 4003 ∧
      Int.fdiv (25025 * 16000) ((10 : ℤ) ^ 5) = 4004 ∧
      convert 16000 "0.25025" ≠ some (Int.fdiv (25025 * 16000) ((10 : ℤ) ^ 5)) := by
  decide

/-- C6 (amended): every window is materialized as the truncation toward zero
of the IEEE binary64 product float(offset) * sample_rate (and likewise for
the duration), which can fall one sample below floor(offset_seconds *
sample_rate) when the double rounding error is downward; on inputs whose
doubles are exact - in particular the concrete scenario's offsets 0.0 / 2.0 /
5.0 s and durations 1.5 / 2.0 / 1.0 s at 16000 Hz - truncation and floor
coincide, and the scenario yields utterance ids talk_0, talk_1, talk_2 in
that order with offset samples [0, 32000, 80000] and duration samples
[24000, 32000, 16000]. -/
theorem C6_amended :
    (buildData (fun _ => 16000) "wav" c6segs).map
        (fun l => l.map (fun d => (d.id, d.offset, d.n_frames))) =
      some [("talk_0", 0, 24000), ("talk_1", 32000, 32000),
        ("talk_2", 80000, 16000)] ∧
      (convert 16000 "0.0" = some (Int.fdiv (0 * 16000) ((10 : ℤ) ^ 1)) ∧
        convert 16000 "2.0" = some (Int.fdiv (20 * 16000) ((10 : ℤ) ^ 1)) ∧
        convert 16000 "5.0" = some (Int.fdiv (50 * 16000) ((10 : ℤ) ^ 1)) ∧
        convert 16000 "1.5" = some (Int.fdiv (15 * 16000) ((10 : ℤ) ^ 1)) ∧
        convert 16000 "1.0" = some (Int.fdiv (10 * 16000) ((10 : ℤ) ^ 1))) := by
  decide

end PrepMUSTC
